import Mathlib

/-
Verification of the PatchTransformer plugin
(plugin/builtin/patchtransformer/PatchTransformer.go).

The file embeds the plugin's `Config` / `Transform` pipeline as executable
Lean functions.  The external collaborators consumed by the plugin — the
loader, the two patch decoders, the YAML-to-JSON converter, the selector
evaluation of the resource collection and the strategic-merge primitive —
are not part of the repository's source under scrutiny; they are modelled
from the spec as abstract function-valued parameters (`Env`, `Selector`,
`JsonPatch`) or as concrete spec-modelled operations (`mergeStrategic`,
identity matching).
-/

namespace PatchTransformer

/-- Modelled from the spec: the addressing identity of a document,
`group/version/kind/name/namespace` (spec "ResourceIdentity").
The Go `namespace` component is called `ns` here. -/
structure ResId where
  group : String
  version : String
  kind : String
  name : String
  ns : String
deriving DecidableEq

/-- Modelled from the spec: an addressable structured document
(`resource.Resource` lives outside the translated source).  Its body is the
identity plus a flat association list of scalar fields keyed by path. -/
structure Resource where
  id : ResId
  fields : List (String × Nat)
deriving DecidableEq

/-- Modelled from the spec: a decoded JSON Patch operation list
(`jsonpatch.Patch`), represented by its end-to-end effect on a document:
serialize the target, apply the ordered operations, deserialize the result.
The decoder and the apply primitive are external collaborators, so the
effect is an abstract fallible function. -/
structure JsonPatch where
  apply : Resource → Except String Resource

/-- Modelled from the spec: an opaque selector (`types.Selector`) evaluated
by the external document collection.  `matches` is the predicate; `fails`
carries the selector-evaluation error when the evaluation itself fails. -/
structure Selector where
  matchesRes : Resource → Bool
  fails : Option String

/-- Modelled from the spec: selector resolution by the external collection
(`resmap.ResMap.Select`): an evaluation error propagates, otherwise the
collection is filtered by the predicate in its existing iteration order. -/
def Select (s : Selector) (m : List Resource) : Except String (List Resource) :=
  match s.fails with
  | some e => .error e
  | none => .ok (m.filter s.matchesRes)

/-- Modelled from the spec: the external collaborators consumed by `Config`:
`fromBytes` is `p.rf.RF().FromBytes` (strategic-merge candidate decoding),
`yamlToJSON` is `yaml.YAMLToJSON`, `decodePatch` is `jsonpatch.DecodePatch`,
and `load` is `ifc.Loader.Load`.  All errors are opaque strings. -/
structure Env where
  fromBytes : String → Except String Resource
  yamlToJSON : String → Except String String
  decodePatch : String → Except String JsonPatch
  load : String → Except String String

/-- The patch specification consumed by `Config`: the `path`, `patch` and
`target` fields of the plugin struct, taken as an opaque pre-parsed struct
(the `yaml.Unmarshal(c, p)` step is outside the model). -/
structure PatchSpec where
  Path : String
  Patch : String
  Target : Option Selector

/-- The plugin state after `Config`: the configuration fields plus the two
classification outputs `loadedPatch` (strategic merge) and `decodedPatch`
(JSON Patch), each a nil-able pointer/slice in Go, hence an `Option`. -/
structure Plugin where
  Path : String
  Patch : String
  Target : Option Selector
  loadedPatch : Option Resource
  decodedPatch : Option JsonPatch

/-- Errors returned by `Config`.  Each constructor corresponds to one
`fmt.Errorf` site in the Go source; `loaderErr` carries the external
loader's error verbatim. -/
inductive ConfigErr where
  /-- Go: "must specify one of patch and path in ..." -/
  | missingSource
  /-- Go: "patch and path can't be set at the same time ..." -/
  | conflictingSource
  /-- the loader's own error, propagated unchanged -/
  | loaderErr (e : String)
  /-- Go: "unable to get either a Strategic Merge Patch or JSON patch 6902 ..." -/
  | unrecognizedFormat
deriving DecidableEq

/-- Errors returned by `Transform`. -/
inductive TransformErr where
  /-- `m.GetById` failed: no identity match, or the lookup is ambiguous -/
  | targetNotFound
  /-- Go: "must specify a target for patch ..." -/
  | missingTarget
  /-- the selector-evaluation error, propagated unchanged -/
  | selectorErr (e : String)
  /-- Go: Wrapf of the apply error, "failed to apply json patch ..." -/
  | jsonPatchApply (e : String)
deriving DecidableEq

/-- Boolean success test on `Except`. -/
def exceptIsOk : Except ε α → Bool
  | .ok _ => true
  | .error _ => false

/-- First-match association-list lookup over a document's fields. -/
def fdLookup (k : String) : List (String × Nat) → Option Nat
  | [] => none
  | (a, v) :: rest => if a = k then some v else fdLookup k rest

/-- Modelled from the spec: field-level merge of the strategic-merge
primitive — fields present in the patch overwrite the target's fields,
all other target fields are kept. -/
def mergeFields (t p : List (String × Nat)) : List (String × Nat) :=
  p ++ t.filter (fun kv => (fdLookup kv.1 p).isNone)

/-- Keep the target's identity component when the patch leaves it
unspecified (empty), otherwise take the patch's component. -/
def orKeep (t p : String) : String := if p = "" then t else p

/-- Modelled from the spec: identity components absent (empty) in the patch
keep the target's value. -/
def mergeId (t p : ResId) : ResId :=
  ⟨orKeep t.group p.group, orKeep t.version p.version, orKeep t.kind p.kind,
   orKeep t.name p.name, orKeep t.ns p.ns⟩

/-- Modelled from the spec: the external strategic-merge primitive
(`resource.Resource.Patch` / `Kunstructured` merge): a field-level deep
merge of the patch document `p` into the target `t`. -/
def mergeStrategic (t p : Resource) : Resource :=
  ⟨mergeId t.id p.id, mergeFields t.fields p.fields⟩

/-- Does one identity component of the patch match the document's:
an unspecified (empty) patch component matches anything. -/
def emptyOr (p d : String) : Bool := p == "" || p == d

/-- Modelled from the spec: identity matching used by `m.GetById` — the
patch document's declared identity against a collection document's
identity, unspecified components unconstrained. -/
def idMatches (p d : ResId) : Bool :=
  emptyOr p.group d.group && emptyOr p.version d.version &&
  emptyOr p.kind d.kind && emptyOr p.name d.name && emptyOr p.ns d.ns

/-- Number of collection documents whose identity matches `pid`. -/
def matchCount (pid : ResId) (m : List Resource) : Nat :=
  (m.filter (fun r => idMatches pid r.id)).length

/-- Merge the patch into the first identity-matching document of the
collection, in place (used when `matchCount` is exactly one). -/
def applyImplicit (lp : Resource) : List Resource → List Resource
  | [] => []
  | r :: rs =>
    if idMatches lp.id r.id then mergeStrategic r lp :: rs
    else r :: applyImplicit lp rs

/-- Translation of `jsonPatchFromBytes`: an empty body is an error; if the
first byte is `[` the body is decoded directly, otherwise it is first
converted by `yaml.YAMLToJSON` (a conversion error failing the attempt)
and the converted bytes are decoded. -/
def jsonPatchFromBytes (env : Env) (b : String) : Except String JsonPatch :=
  if b = "" then .error "empty json patch operations"
  else if b.data.head? = some '[' then env.decodePatch b
  else
    match env.yamlToJSON b with
    | .error e => .error e
    | .ok jsonOps => env.decodePatch jsonOps

/-- Translation of the source-resolution part of `Config` (the two
validation checks and the loader call): neither field set fails with
`missingSource`, both set fails with `conflictingSource`, otherwise the
byte body is the loaded bytes (for `path`) or the inline `patch` text. -/
def resolveSource (env : Env) (s : PatchSpec) : Except ConfigErr String :=
  if s.Patch = "" ∧ s.Path = "" then .error .missingSource
  else if s.Patch ≠ "" ∧ s.Path ≠ "" then .error .conflictingSource
  else
    match (if s.Path ≠ "" then (env.load s.Path).mapError ConfigErr.loaderErr
           else .ok "") with
    | .error e => .error e
    | .ok loaded => .ok (if s.Patch ≠ "" then s.Patch else loaded)

/-- Translation of the classification part of `Config`.  Both decoders are
attempted; both failing returns the unrecognized-format error; exactly one
succeeding populates that variant.  When both succeed the Go source builds
the ambiguity error but then executes `return nil`, so the translated
function returns success with neither variant populated. -/
def classify (env : Env) (b : String) :
    Except ConfigErr (Option Resource × Option JsonPatch) :=
  match env.fromBytes b, jsonPatchFromBytes env b with
  | .error _, .error _ => .error .unrecognizedFormat
  | .ok sm, .error _ => .ok (some sm, none)
  | .error _, .ok jp => .ok (none, some jp)
  | .ok _, .ok _ => .ok (none, none)

/-- Translation of `Config`: resolve the patch source, then classify the
body and populate the plugin state. -/
def Config (env : Env) (s : PatchSpec) : Except ConfigErr Plugin :=
  match resolveSource env s with
  | .error e => .error e
  | .ok b =>
    match classify env b with
    | .error e => .error e
    | .ok (sm, jp) =>
      .ok ⟨s.Path, s.Patch, s.Target, sm, jp⟩

/-- Translation of one iteration of the `Transform` loop body: the JSON
patch (if present) is applied through marshal/apply/unmarshal, an apply
error being wrapped as `jsonPatchApply`; then the strategic-merge patch
(if present) is re-stamped to the current document's identity
(`SetName`/`SetNamespace`/`SetGvk`) and merged.  The re-stamped patch is
returned because the Go code mutates the shared `p.loadedPatch`. -/
def applyToOne (jpOpt : Option JsonPatch) (lpOpt : Option Resource)
    (r : Resource) : Except TransformErr (Resource × Option Resource) :=
  let afterJson : Except TransformErr Resource :=
    match jpOpt with
    | none => .ok r
    | some jp =>
      match jp.apply r with
      | .error e => .error (.jsonPatchApply e)
      | .ok r1 => .ok r1
  match afterJson with
  | .error e => .error e
  | .ok r1 =>
    match lpOpt with
    | none => .ok (r1, none)
    | some lp =>
      let lp1 : Resource := ⟨r1.id, lp.fields⟩
      .ok (mergeStrategic r1 lp1, some lp1)

/-- Translation of the `Transform` selection loop: documents are processed
in the collection's iteration order, only selector-matched documents are
touched, and the first application failure aborts the loop with the
remaining documents unchanged.  The second component threads the mutable
`p.loadedPatch` state across iterations. -/
def transformLoop (jpOpt : Option JsonPatch) (sel : Selector) :
    Option Resource → List Resource →
    List Resource × Option Resource × Option TransformErr
  | lpOpt, [] => ([], lpOpt, none)
  | lpOpt, r :: rs =>
    if sel.matchesRes r then
      match applyToOne jpOpt lpOpt r with
      | .error e => (r :: rs, lpOpt, some e)
      | .ok (r1, lp2) =>
        match transformLoop jpOpt sel lp2 rs with
        | (rs1, lpF, err) => (r1 :: rs1, lpF, err)
    else
      match transformLoop jpOpt sel lpOpt rs with
      | (rs1, lpF, err) => (r :: rs1, lpF, err)

/-- Translation of `Transform`: when a strategic-merge patch is loaded and
no target is configured, the implicit target is looked up by the patch's
own identity (`m.GetById`) and merged in place; then a missing target is
an error (the Go code reaches this even after a successful implicit
merge); otherwise the selector is evaluated and the loop runs over the
collection.  The result is the collection after any in-place mutation,
paired with the returned error, if any. -/
def Transform (p : Plugin) (m : List Resource) :
    List Resource × Option TransformErr :=
  let afterImplicit : List Resource × Option TransformErr :=
    match p.loadedPatch, p.Target with
    | some lp, none =>
      if matchCount lp.id m = 1 then (applyImplicit lp m, none)
      else (m, some .targetNotFound)
    | _, _ => (m, none)
  match afterImplicit, p.Target with
  | (m1, some e), _ => (m1, some e)
  | (m1, none), none => (m1, some .missingTarget)
  | (m1, none), some sel =>
    match sel.fails with
    | some e => (m1, some (.selectorErr e))
    | none =>
      match transformLoop p.decodedPatch sel p.loadedPatch m1 with
      | (m2, _, err) => (m2, err)

/-- The expected result of broadcasting a strategic-merge patch with field
list `lp.fields` over a collection: every selector-matched document is
merged with the patch re-stamped to that document's own identity. -/
def smBroadcast (lp : Resource) (sel : Selector) (m : List Resource) :
    List Resource :=
  m.map fun r =>
    if sel.matchesRes r then mergeStrategic r ⟨r.id, lp.fields⟩ else r

/-! ### Concrete fixtures

Concrete environments and documents used by the closed theorems and the
witnesses.  The decoders are abstract collaborators, so the patch bodies
are opaque tokens; each environment pins down how the collaborators behave
on them. -/

/-- A strategic-merge patch document as decoded from a body declaring only
a name and a `spec.replicas` value (spec Scenario A). -/
def lpA : Resource := ⟨⟨"", "", "", "x", ""⟩, [("spec.replicas", 3)]⟩

/-- Environment in which the body "smBody" decodes only as a strategic
merge patch (the JSON Patch attempt fails at YAML-to-JSON conversion). -/
def envSM : Env :=
  ⟨fun b => if b = "smBody" then .ok lpA else .error "no resource",
   fun _ => .error "not convertible",
   fun _ => .error "no json patch",
   fun _ => .error "loader unused"⟩

/-- Inline-patch configuration with body "smBody" and no target. -/
def specSM : PatchSpec := ⟨"", "smBody", none⟩

/-- A deployment document named `x` with `spec.replicas` 1. -/
def docX : Resource :=
  ⟨⟨"apps", "v1", "Deployment", "x", ""⟩, [("spec.replicas", 1), ("other", 7)]⟩

/-- `docX` after the strategic merge of `lpA`: `spec.replicas` becomes 3,
every other field and the identity are unchanged. -/
def docXPatched : Resource :=
  ⟨⟨"apps", "v1", "Deployment", "x", ""⟩, [("spec.replicas", 3), ("other", 7)]⟩

/-- The strategic-merge document decoded from the ambiguous body. -/
def smAmb : Resource := ⟨⟨"", "", "", "amb", ""⟩, [("a", 1)]⟩

/-- The JSON patch decoded from the ambiguous body (identity effect). -/
def jpAmb : JsonPatch := ⟨fun r => .ok r⟩

/-- Environment in which every body decodes both as a strategic merge
document and as a JSON Patch: `fromBytes` and `decodePatch` always
succeed (bodies starting with a bracket skip the YAML conversion). -/
def envAmb : Env :=
  ⟨fun _ => .ok smAmb,
   fun _ => .error "conversion unused",
   fun _ => .ok jpAmb,
   fun _ => .error "loader unused"⟩

/-- Inline-patch configuration with the ambiguous body and no target. -/
def specAmb : PatchSpec := ⟨"", "[amb]", none⟩

/-! ### Claim theorems -/

/-- C1: the claim says that a body decoding both as a strategic merge and
as a JSON Patch makes `Config` fail with the ambiguity error.  The code
builds that error and then executes `return nil`, so `Config` actually
returns success: at a concrete input on which both decoders succeed,
`Config` returns `.ok` (with neither variant populated). -/
theorem ambiguous_patch_config_returns_success :
    envAmb.fromBytes "[amb]" = .ok smAmb ∧
    jsonPatchFromBytes envAmb "[amb]" = .ok jpAmb ∧
    Config envAmb specAmb = .ok ⟨"", "[amb]", none, none, none⟩ :=
  ⟨rfl, rfl, rfl⟩

/-- C4: the claim says classification always lands in one of the four
outcomes and a successful `Config` always populates exactly one variant.
On an ambiguous body `Config` succeeds with *neither* variant populated,
violating the claimed invariant. -/
theorem classification_success_with_neither_variant :
    ∃ p : Plugin,
      Config envAmb specAmb = .ok p ∧
      p.loadedPatch = none ∧ p.decodedPatch = none :=
  ⟨⟨"", "[amb]", none, none, none⟩, rfl, rfl, rfl⟩

/-- C2: the claim (spec Scenario A) says that with a strategic-merge patch
and no selector, `Transform` merges into the identity-matched document and
returns success.  The code performs the merge but then falls into the
`p.Target == nil` check and returns the "must specify a target" error:
at the concrete Scenario A input the document is mutated (`spec.replicas`
becomes 3) and `Transform` still returns an error. -/
theorem implicit_target_merge_then_missing_target_error :
    Config envSM specSM = .ok ⟨"", "smBody", none, some lpA, none⟩ ∧
    Transform ⟨"", "smBody", none, some lpA, none⟩ [docX] =
      ([docXPatched], some .missingTarget) ∧
    fdLookup "spec.replicas" docXPatched.fields = some 3 :=
  ⟨rfl, rfl, rfl⟩

/-- Environment whose loader always fails (the decoders are irrelevant). -/
def envLoadFail : Env :=
  ⟨fun _ => .error "sm decoder unused", fun _ => .error "converter unused",
   fun _ => .error "jp decoder unused", fun _ => .error "enoent"⟩

/-- Configuration with only the `path` field set. -/
def specPathOnly : PatchSpec := ⟨"missing.yaml", "", none⟩

/-- Environment whose collaborators all succeed. -/
def envOk : Env :=
  ⟨fun _ => .ok smAmb, fun _ => .ok "[]", fun _ => .ok jpAmb,
   fun _ => .ok "body"⟩

/-- Any error produced by `classify` is the unrecognized-format error. -/
theorem classify_error_eq (env : Env) (b : String) (e : ConfigErr)
    (h : classify env b = .error e) : e = .unrecognizedFormat := by
  unfold classify at h
  cases hs : env.fromBytes b <;> cases hj : jsonPatchFromBytes env b <;>
    rw [hs, hj] at h <;> simp at h
  exact h.symm

/-- A source-resolution error is returned by `Config` unchanged. -/
theorem config_of_resolve_error (env : Env) (s : PatchSpec) (e : ConfigErr)
    (h : resolveSource env s = .error e) : Config env s = .error e := by
  unfold Config
  rw [h]

/-- On a resolved source body, `Config` is classification. -/
theorem config_of_resolve_ok (env : Env) (s : PatchSpec) (b : String)
    (h : resolveSource env s = .ok b) :
    Config env s =
      (match classify env b with
       | .error e => .error e
       | .ok (sm, jp) => .ok ⟨s.Path, s.Patch, s.Target, sm, jp⟩) := by
  unfold Config
  rw [h]

/-- With both validation checks passed, a source-resolution error can only
be a propagated loader error. -/
theorem resolveSource_error_shape (env : Env) (s : PatchSpec)
    (h1 : ¬(s.Patch = "" ∧ s.Path = ""))
    (h2 : ¬(s.Patch ≠ "" ∧ s.Path ≠ "")) (e : ConfigErr)
    (h : resolveSource env s = .error e) : ∃ e0, e = .loaderErr e0 := by
  unfold resolveSource at h
  rw [if_neg h1, if_neg h2] at h
  by_cases hp : s.Path ≠ ""
  · rw [if_pos hp] at h
    cases hl : env.load s.Path with
    | error e0 =>
      rw [hl] at h
      simp [Except.mapError] at h
      exact ⟨e0, h.symm⟩
    | ok bs =>
      rw [hl] at h
      simp [Except.mapError] at h
  · rw [if_neg hp] at h
    simp at h

/-- With the two validation checks passed, `Config` can only return a
loader error, the unrecognized-format error, or succeed. -/
theorem config_shape (env : Env) (s : PatchSpec)
    (h1 : ¬(s.Patch = "" ∧ s.Path = ""))
    (h2 : ¬(s.Patch ≠ "" ∧ s.Path ≠ "")) :
    (∃ e, Config env s = .error (.loaderErr e)) ∨
    Config env s = .error .unrecognizedFormat ∨
    (∃ p, Config env s = .ok p) := by
  cases hr : resolveSource env s with
  | error e =>
    obtain ⟨e0, he⟩ := resolveSource_error_shape env s h1 h2 e hr
    subst he
    exact Or.inl ⟨e0, config_of_resolve_error env s _ hr⟩
  | ok b =>
    have hcfg := config_of_resolve_ok env s b hr
    cases hc : classify env b with
    | error e =>
      have he := classify_error_eq env b e hc
      subst he
      rw [hc] at hcfg
      exact Or.inr (Or.inl hcfg)
    | ok pr =>
      obtain ⟨sm, jp⟩ := pr
      rw [hc] at hcfg
      exact Or.inr (Or.inr ⟨_, hcfg⟩)

/-- With exactly one source set, `resolveSource` succeeds as soon as the
loader succeeds when `path` is used. -/
theorem resolveSource_ok_of_exactly_one (env : Env) (s : PatchSpec)
    (h1 : ¬(s.Patch = "" ∧ s.Path = ""))
    (h2 : ¬(s.Patch ≠ "" ∧ s.Path ≠ ""))
    (hload : s.Path ≠ "" → exceptIsOk (env.load s.Path) = true) :
    exceptIsOk (resolveSource env s) = true := by
  unfold resolveSource
  rw [if_neg h1, if_neg h2]
  by_cases hp : s.Path ≠ ""
  · rw [if_pos hp]
    cases hl : env.load s.Path with
    | error e0 =>
      have hko := hload hp
      rw [hl] at hko
      simp [exceptIsOk] at hko
    | ok bs =>
      rfl
  · rw [if_neg hp]
    rfl

/-- C3 (amended): `Config`'s validation is a trichotomy — neither source
set fails with the missing-source error, both set fails with the
conflicting-source error, and with exactly one set neither of those two
validation errors is returned; in the last case source resolution succeeds
provided the loader succeeds when `path` is the source (a loader failure
propagates instead). -/
theorem config_source_trichotomy (env : Env) (s : PatchSpec) :
    (s.Patch = "" ∧ s.Path = "" → Config env s = .error .missingSource) ∧
    (s.Patch ≠ "" ∧ s.Path ≠ "" → Config env s = .error .conflictingSource) ∧
    ((s.Patch = "" ∧ s.Path ≠ "") ∨ (s.Patch ≠ "" ∧ s.Path = "") →
      Config env s ≠ .error .missingSource ∧
      Config env s ≠ .error .conflictingSource ∧
      ((s.Path ≠ "" → exceptIsOk (env.load s.Path) = true) →
        exceptIsOk (resolveSource env s) = true)) := by
  refine ⟨?_, ?_, ?_⟩
  · rintro ⟨h1, h2⟩
    apply config_of_resolve_error
    unfold resolveSource
    rw [if_pos ⟨h1, h2⟩]
  · rintro ⟨h1, h2⟩
    apply config_of_resolve_error
    unfold resolveSource
    rw [if_neg (fun hh => h1 hh.1), if_pos ⟨h1, h2⟩]
  · intro hone
    have h1 : ¬(s.Patch = "" ∧ s.Path = "") := by
      rcases hone with ⟨ha, hb⟩ | ⟨ha, hb⟩ <;> rintro ⟨hc, hd⟩ <;> tauto
    have h2 : ¬(s.Patch ≠ "" ∧ s.Path ≠ "") := by
      rcases hone with ⟨ha, hb⟩ | ⟨ha, hb⟩ <;> rintro ⟨hc, hd⟩ <;> tauto
    refine ⟨?_, ?_, resolveSource_ok_of_exactly_one env s h1 h2⟩ <;>
      rcases config_shape env s h1 h2 with ⟨e, hcf⟩ | hcf | ⟨p, hcf⟩ <;>
        rw [hcf] <;> simp

/-- C3 counterexample: with only `path` set and the loader failing, source
resolution does not succeed — `Config` fails with the loader's error — so
the claim's third arm ("exactly one set → successful resolution") is false
as stated at this input. -/
theorem config_trichotomy_loader_failure_cex :
    specPathOnly.Patch = "" ∧ specPathOnly.Path ≠ "" ∧
    resolveSource envLoadFail specPathOnly = .error (.loaderErr "enoent") ∧
    Config envLoadFail specPathOnly = .error (.loaderErr "enoent") :=
  ⟨rfl, by decide, rfl, rfl⟩

/-- Witness for the trichotomy theorem at concrete configurations. -/
theorem config_source_trichotomy_witness :
    Config envOk ⟨"", "", none⟩ = .error .missingSource ∧
    Config envOk ⟨"pp", "qq", none⟩ = .error .conflictingSource ∧
    exceptIsOk (resolveSource envOk ⟨"pp", "", none⟩) = true :=
  ⟨(config_source_trichotomy envOk ⟨"", "", none⟩).1 ⟨rfl, rfl⟩,
   (config_source_trichotomy envOk ⟨"pp", "qq", none⟩).2.1
     ⟨by decide, by decide⟩,
   ((config_source_trichotomy envOk ⟨"pp", "", none⟩).2.2
     (Or.inl ⟨rfl, by decide⟩)).2.2 (fun _ => rfl)⟩

/-- A loader failure makes `Config` return the propagated loader error. -/
theorem config_loader_error (env : Env) (s : PatchSpec) (e : String)
    (hpatch : s.Patch = "") (hpath : s.Path ≠ "")
    (hload : env.load s.Path = .error e) :
    Config env s = .error (.loaderErr e) := by
  apply config_of_resolve_error
  unfold resolveSource
  rw [if_neg (fun hh => hpath hh.2), if_neg (fun hh => hh.1 hpatch),
    if_pos hpath, hload]
  rfl

/-- C9: with `path` set and the loader failing, `Config` returns the
loader's error unchanged, and the result does not depend on any of the
three decoding collaborators (they are universally quantified here), so
neither classification decoder is invoked. -/
theorem loader_error_propagates_decoders_unused
    (fb : String → Except String Resource)
    (yj : String → Except String String)
    (dp : String → Except String JsonPatch)
    (l : String → Except String String)
    (s : PatchSpec) (e : String)
    (hpatch : s.Patch = "") (hpath : s.Path ≠ "")
    (hload : l s.Path = .error e) :
    Config ⟨fb, yj, dp, l⟩ s = .error (.loaderErr e) :=
  config_loader_error ⟨fb, yj, dp, l⟩ s e hpatch hpath hload

/-- Witness for the loader-error theorem at a concrete environment. -/
theorem loader_error_propagates_decoders_unused_witness :
    Config ⟨envOk.fromBytes, envOk.yamlToJSON, envOk.decodePatch,
      envLoadFail.load⟩ specPathOnly = .error (.loaderErr "enoent") :=
  loader_error_propagates_decoders_unused _ _ _ _ specPathOnly "enoent"
    rfl (by decide) rfl

/-- A JSON patch with the identity effect on every document. -/
def idJsonPatch : JsonPatch := ⟨fun r => .ok r⟩

/-- Environment in which direct JSON Patch decoding always succeeds but
the YAML-to-JSON conversion always fails. -/
def envConvFail : Env :=
  ⟨fun _ => .error "sm unused", fun _ => .error "conversion failed",
   fun _ => .ok idJsonPatch, fun _ => .error "loader unused"⟩

/-- C5 (amended): for every non-empty body the JSON-Patch attempt
dispatches on the body's first character, not on its trimmed form: if the
first character is not `[` the body is first converted by the YAML-to-JSON
collaborator and the converted bytes are decoded, a conversion failure
failing the attempt; if the first character is `[` the body is decoded
directly without conversion. -/
theorem jsonPatch_attempt_first_char_dispatch (env : Env) (b : String)
    (hb : b ≠ "") :
    (b.data.head? ≠ some '[' →
      jsonPatchFromBytes env b = (env.yamlToJSON b).bind env.decodePatch ∧
      ∀ e, env.yamlToJSON b = .error e →
        jsonPatchFromBytes env b = .error e) ∧
    (b.data.head? = some '[' →
      jsonPatchFromBytes env b = env.decodePatch b) := by
  constructor
  · intro hh
    unfold jsonPatchFromBytes
    rw [if_neg hb, if_neg hh]
    constructor
    · cases hy : env.yamlToJSON b <;> rfl
    · intro e he
      rw [he]
  · intro hh
    unfold jsonPatchFromBytes
    rw [if_neg hb, if_pos hh]

/-- C5 counterexample: the body " []" (a leading blank before the bracket)
has a trimmed form that starts with `[`, and direct decoding of the body
succeeds in this environment; yet the code dispatches on the first
character, runs the failing conversion, and the JSON-Patch attempt fails —
so "a trimmed body starting with `[` is decoded directly without
conversion" is false as stated at this input. -/
theorem jsonPatch_trimmed_bracket_cex :
    ((" []").data.dropWhile Char.isWhitespace) = ['[', ']'] ∧
    (" []").data.head? = some ' ' ∧
    envConvFail.decodePatch " []" = .ok idJsonPatch ∧
    jsonPatchFromBytes envConvFail " []" = .error "conversion failed" := by
  refine ⟨by decide, rfl, rfl, rfl⟩

/-- Witness for the dispatch theorem at concrete bodies. -/
theorem jsonPatch_attempt_first_char_dispatch_witness :
    jsonPatchFromBytes envConvFail "a: 1" = .error "conversion failed" ∧
    jsonPatchFromBytes envConvFail "[]" = envConvFail.decodePatch "[]" :=
  ⟨((jsonPatch_attempt_first_char_dispatch envConvFail "a: 1"
      (by decide)).1 (by decide)).2 "conversion failed" rfl,
   (jsonPatch_attempt_first_char_dispatch envConvFail "[]"
      (by decide)).2 rfl⟩

/-- If no document in the collection is selector-matched, the loop leaves
the collection and the threaded patch state unchanged, with no error. -/
theorem transformLoop_unmatched (jpOpt : Option JsonPatch) (sel : Selector) :
    ∀ (m : List Resource) (lpOpt : Option Resource),
    (∀ r ∈ m, sel.matchesRes r = false) →
    transformLoop jpOpt sel lpOpt m = (m, lpOpt, none) := by
  intro m
  induction m with
  | nil =>
    intro lpOpt h
    rfl
  | cons r rs ih =>
    intro lpOpt h
    have hr : sel.matchesRes r = false := h r (List.mem_cons_self r rs)
    have hrs := ih lpOpt (fun x hx => h x (List.mem_cons_of_mem r hx))
    simp [transformLoop, hr, hrs]

/-- C8: with a configured selector, an empty selection result leaves every
document unchanged and `Transform` succeeds; a selector-evaluation failure
is propagated (the collection untouched). -/
theorem empty_selection_ok_and_selector_error_propagates
    (p : Plugin) (sel : Selector) (m : List Resource)
    (hT : p.Target = some sel) :
    (Select sel m = .ok [] → Transform p m = (m, none)) ∧
    (∀ e, sel.fails = some e →
      Transform p m = (m, some (.selectorErr e))) := by
  constructor
  · intro hsel
    have hf : sel.fails = none := by
      cases hfl : sel.fails with
      | none => rfl
      | some e =>
        unfold Select at hsel
        rw [hfl] at hsel
        simp at hsel
    have hflt : m.filter sel.matchesRes = [] := by
      unfold Select at hsel
      rw [hf] at hsel
      simpa using hsel
    have hnone : ∀ r ∈ m, sel.matchesRes r = false := by
      intro r hr
      by_contra hc
      have hmem : r ∈ m.filter sel.matchesRes :=
        List.mem_filter.2 ⟨hr, by simpa using hc⟩
      rw [hflt] at hmem
      simp at hmem
    cases hlp : p.loadedPatch with
    | none =>
      simp [Transform, hT, hlp, hf,
        transformLoop_unmatched p.decodedPatch sel m none hnone]
    | some lp =>
      simp [Transform, hT, hlp, hf,
        transformLoop_unmatched p.decodedPatch sel m (some lp) hnone]
  · intro e hfl
    cases hlp : p.loadedPatch with
    | none => simp [Transform, hT, hlp, hfl]
    | some lp => simp [Transform, hT, hlp, hfl]

/-- Selector matching nothing, with successful evaluation. -/
def selNone : Selector := ⟨fun _ => false, none⟩

/-- Selector whose evaluation itself fails. -/
def selBoom : Selector := ⟨fun _ => true, some "selector boom"⟩

/-- A plugin state carrying only an explicit target. -/
def pJustTarget (sel : Selector) : Plugin := ⟨"", "body", some sel, none, none⟩

/-- Witness for the selector theorem at concrete selectors. -/
theorem empty_selection_witness :
    Transform (pJustTarget selNone) [docX] = ([docX], none) ∧
    Transform (pJustTarget selBoom) [docX] =
      ([docX], some (.selectorErr "selector boom")) :=
  ⟨(empty_selection_ok_and_selector_error_propagates
      (pJustTarget selNone) selNone [docX] rfl).1 rfl,
   (empty_selection_ok_and_selector_error_propagates
      (pJustTarget selBoom) selBoom [docX] rfl).2 "selector boom" rfl⟩

theorem orKeep_self (a : String) : orKeep a a = a := by
  unfold orKeep
  split <;> rfl

theorem mergeId_self (i : ResId) : mergeId i i = i := by
  cases i
  simp [mergeId, orKeep_self]

theorem fdLookup_append (k : String) (l1 l2 : List (String × Nat)) :
    fdLookup k (l1 ++ l2) =
      match fdLookup k l1 with
      | some v => some v
      | none => fdLookup k l2 := by
  induction l1 with
  | nil => rfl
  | cons kv rest ih =>
    obtain ⟨a, v⟩ := kv
    by_cases ha : a = k
    · simp [fdLookup, ha]
    · simp [fdLookup, ha, ih]

theorem fdLookup_filter_not_in_patch (k : String) (p : List (String × Nat))
    (hk : fdLookup k p = none) (t : List (String × Nat)) :
    fdLookup k (t.filter (fun kv => (fdLookup kv.1 p).isNone)) =
      fdLookup k t := by
  induction t with
  | nil => rfl
  | cons kv rest ih =>
    obtain ⟨a, v⟩ := kv
    rw [List.filter_cons]
    by_cases ha : a = k
    · subst ha
      simp [hk, fdLookup]
    · cases hp : (fdLookup a p).isNone with
      | true => simp [hp, fdLookup, ha, ih]
      | false => simp [hp, fdLookup, ha, ih]

/-- A field named by the patch body ends with the patch's value. -/
theorem fdLookup_mergeFields_some (k : String) (t p : List (String × Nat))
    (v : Nat) (h : fdLookup k p = some v) :
    fdLookup k (mergeFields t p) = some v := by
  unfold mergeFields
  rw [fdLookup_append, h]

/-- A field not named by the patch body is unchanged by the merge. -/
theorem fdLookup_mergeFields_none (k : String) (t p : List (String × Nat))
    (h : fdLookup k p = none) :
    fdLookup k (mergeFields t p) = fdLookup k t := by
  unfold mergeFields
  rw [fdLookup_append, h, fdLookup_filter_not_in_patch k p h t]

/-- One strategic-merge loop step re-stamps the patch to the current
document's identity, merges, and threads the re-stamped patch on.  The
loop result depends only on the patch state's field list, so it is the
broadcast of those fields over the matched documents. -/
theorem transformLoop_strategic (sel : Selector) (lpf : List (String × Nat)) :
    ∀ (m : List Resource) (i0 : ResId),
    ∃ lpF, transformLoop none sel (some ⟨i0, lpf⟩) m =
      ((m.map fun r =>
          if sel.matchesRes r then mergeStrategic r ⟨r.id, lpf⟩ else r),
        lpF, none) := by
  intro m
  induction m with
  | nil =>
    intro i0
    exact ⟨some ⟨i0, lpf⟩, rfl⟩
  | cons r rs ih =>
    intro i0
    by_cases hm : sel.matchesRes r
    · obtain ⟨lpF, hrest⟩ := ih r.id
      refine ⟨lpF, ?_⟩
      simp [transformLoop, hm, applyToOne, hrest]
    · obtain ⟨lpF, hrest⟩ := ih i0
      refine ⟨lpF, ?_⟩
      simp [transformLoop, hm, hrest]

/-- C6: a strategic-merge patch applied through an explicit selector is
re-stamped to each matched document's identity before each individual
merge: `Transform` broadcasts the patch body over the matched documents,
each matched document keeps its own identity (name and namespace
included), fields named by the patch body take the patch's value, and
fields not named by the patch body are unchanged. -/
theorem strategic_broadcast_restamp
    (p : Plugin) (sel : Selector) (lp : Resource) (m : List Resource)
    (hT : p.Target = some sel) (hS : sel.fails = none)
    (hlp : p.loadedPatch = some lp) (hjp : p.decodedPatch = none) :
    Transform p m = (smBroadcast lp sel m, none) ∧
    (∀ r : Resource, sel.matchesRes r = true →
      (mergeStrategic r ⟨r.id, lp.fields⟩).id = r.id ∧
      (∀ k v, fdLookup k lp.fields = some v →
        fdLookup k (mergeStrategic r ⟨r.id, lp.fields⟩).fields = some v) ∧
      (∀ k, fdLookup k lp.fields = none →
        fdLookup k (mergeStrategic r ⟨r.id, lp.fields⟩).fields =
          fdLookup k r.fields)) := by
  constructor
  · obtain ⟨i0, lpf⟩ := lp
    obtain ⟨lpF, hloop⟩ := transformLoop_strategic sel lpf m i0
    simp [Transform, hT, hlp, hjp, hS, hloop, smBroadcast]
  · intro r hr
    refine ⟨mergeId_self r.id, ?_, ?_⟩
    · intro k v hk
      exact fdLookup_mergeFields_some k r.fields lp.fields v hk
    · intro k hk
      exact fdLookup_mergeFields_none k r.fields lp.fields hk

/-- Selector matching every document, with successful evaluation. -/
def selAll : Selector := ⟨fun _ => true, none⟩

/-- A strategic-merge patch body setting `spec.replicas` to 5. -/
def lpB : Resource := ⟨⟨"", "", "", "p", ""⟩, [("spec.replicas", 5)]⟩

/-- Two documents with distinct identities and fields. -/
def docA : Resource :=
  ⟨⟨"apps", "v1", "Deployment", "a", "n1"⟩, [("spec.replicas", 1), ("x", 4)]⟩

def docB : Resource :=
  ⟨⟨"apps", "v1", "StatefulSet", "b", "n2"⟩, [("y", 9)]⟩

/-- Plugin state broadcasting `lpB` over all documents. -/
def pBroadcast : Plugin := ⟨"", "body", some selAll, some lpB, none⟩

/-- Witness: the broadcast evaluated on two concrete documents — each
keeps its own name/namespace/kind, `spec.replicas` becomes 5, and the
other fields are untouched. -/
theorem strategic_broadcast_restamp_witness :
    Transform pBroadcast [docA, docB] =
      (smBroadcast lpB selAll [docA, docB], none) ∧
    smBroadcast lpB selAll [docA, docB] =
      [⟨⟨"apps", "v1", "Deployment", "a", "n1"⟩,
         [("spec.replicas", 5), ("x", 4)]⟩,
       ⟨⟨"apps", "v1", "StatefulSet", "b", "n2"⟩,
         [("spec.replicas", 5), ("y", 9)]⟩] :=
  ⟨(strategic_broadcast_restamp pBroadcast selAll lpB [docA, docB]
      rfl rfl rfl rfl).1, by decide⟩

/-- Appending a failing matched document to a successfully processed
prefix: the loop keeps the prefix's mutations, stops at the failing
document, and leaves it and everything after it unchanged. -/
theorem transformLoop_append_fail (jpOpt : Option JsonPatch) (sel : Selector)
    (d : Resource) (post : List Resource) (e : TransformErr)
    (hd : sel.matchesRes d = true) :
    ∀ (pre : List Resource) (lpOpt lpMid : Option Resource)
      (pre2 : List Resource),
    transformLoop jpOpt sel lpOpt pre = (pre2, lpMid, none) →
    applyToOne jpOpt lpMid d = .error e →
    transformLoop jpOpt sel lpOpt (pre ++ d :: post) =
      (pre2 ++ d :: post, lpMid, some e) := by
  intro pre
  induction pre with
  | nil =>
    intro lpOpt lpMid pre2 hloop hfail
    obtain ⟨h1, h2⟩ :  pre2 = [] ∧ lpMid = lpOpt := by
      have hsym := hloop.symm
      simp [transformLoop] at hsym
      exact ⟨hsym.1, hsym.2⟩
    subst h1
    subst h2
    simp [transformLoop, hd, hfail]
  | cons r rs ih =>
    intro lpOpt lpMid pre2 hloop hfail
    by_cases hm : sel.matchesRes r
    · cases hA : applyToOne jpOpt lpOpt r with
      | error e2 =>
        simp [transformLoop, hm, hA] at hloop
      | ok pr =>
        obtain ⟨r1, lp2⟩ := pr
        rcases hR : transformLoop jpOpt sel lp2 rs with ⟨rs1, lpF, err⟩
        simp [transformLoop, hm, hA, hR] at hloop
        obtain ⟨h1, h2, h3⟩ := hloop
        subst h3
        have hrec := ih lp2 lpMid rs1 (by rw [hR, h2]) hfail
        simp [transformLoop, hm, hA, hrec, ← h1]
    · rcases hR : transformLoop jpOpt sel lpOpt rs with ⟨rs1, lpF, err⟩
      simp [transformLoop, hm, hR] at hloop
      obtain ⟨h1, h2, h3⟩ := hloop
      subst h3
      have hrec := ih lpOpt lpMid rs1 (by rw [hR, h2]) hfail
      simp [transformLoop, hm, hrec, ← h1]

/-- C7: documents are processed in the collection's iteration order and a
failure on one matched document aborts the call immediately: earlier
mutations are kept (no rollback), the failing document and every later
document are unchanged, and the error is returned. -/
theorem transform_abort_on_failure
    (p : Plugin) (sel : Selector) (pre post : List Resource)
    (d : Resource) (pre2 : List Resource) (lpMid : Option Resource)
    (e : TransformErr)
    (hT : p.Target = some sel) (hS : sel.fails = none)
    (hpre : transformLoop p.decodedPatch sel p.loadedPatch pre =
      (pre2, lpMid, none))
    (hd : sel.matchesRes d = true)
    (hfail : applyToOne p.decodedPatch lpMid d = .error e) :
    Transform p (pre ++ d :: post) = (pre2 ++ d :: post, some e) := by
  have hloop := transformLoop_append_fail p.decodedPatch sel d post e hd
    pre p.loadedPatch lpMid pre2 hpre hfail
  cases hlp : p.loadedPatch with
  | none =>
    rw [hlp] at hloop
    simp [Transform, hT, hS, hlp, hloop]
  | some lp =>
    rw [hlp] at hloop
    simp [Transform, hT, hS, hlp, hloop]

/-- A JSON patch failing exactly on the document named "bad". -/
def jpSelective : JsonPatch :=
  ⟨fun r => if r.id.name = "bad" then .error "boom"
            else .ok ⟨r.id, [("patched", 1)]⟩⟩

def docGood : Resource := ⟨⟨"", "", "", "good", ""⟩, [("f", 1)]⟩

def docBad : Resource := ⟨⟨"", "", "", "bad", ""⟩, [("g", 2)]⟩

def docLater : Resource := ⟨⟨"", "", "", "later", ""⟩, [("h", 3)]⟩

/-- Plugin state applying `jpSelective` through the match-all selector. -/
def pJson : Plugin := ⟨"", "jpBody", some selAll, none, some jpSelective⟩

/-- Witness: the first document is mutated, the failing second document
and the third document are unchanged, and the wrapped apply error is
returned. -/
theorem transform_abort_on_failure_witness :
    Transform pJson [docGood, docBad, docLater] =
      ([⟨⟨"", "", "", "good", ""⟩, [("patched", 1)]⟩, docBad, docLater],
        some (.jsonPatchApply "boom")) :=
  transform_abort_on_failure pJson selAll [docGood] [docLater] docBad
    [⟨⟨"", "", "", "good", ""⟩, [("patched", 1)]⟩] none
    (.jsonPatchApply "boom") rfl rfl rfl rfl rfl

/-- The loop with neither patch variant populated is the identity. -/
theorem transformLoop_no_patches (sel : Selector) :
    ∀ m : List Resource, transformLoop none sel none m = (m, none, none) := by
  intro m
  induction m with
  | nil => rfl
  | cons r rs ih =>
    by_cases hm : sel.matchesRes r <;>
      simp [transformLoop, hm, applyToOne, ih]

/-- C10 (amended): a body decoding both as a strategic merge and as a JSON
Patch makes `Config` succeed with neither variant stored, so a subsequent
`Transform` with an explicit selector leaves every document unchanged, and
returns success provided the selector evaluation itself succeeds (a
selector-evaluation failure is still reported as an error). -/
theorem ambiguous_config_transform_noop
    (env : Env) (s : PatchSpec) (b : String) (sel : Selector)
    (sm : Resource) (jp : JsonPatch)
    (hres : resolveSource env s = .ok b)
    (hsm : env.fromBytes b = .ok sm)
    (hjp : jsonPatchFromBytes env b = .ok jp)
    (hT : s.Target = some sel) (hS : sel.fails = none) :
    Config env s = .ok ⟨s.Path, s.Patch, s.Target, none, none⟩ ∧
    ∀ m, Transform ⟨s.Path, s.Patch, s.Target, none, none⟩ m = (m, none) := by
  constructor
  · have hcfg := config_of_resolve_ok env s b hres
    rw [hcfg]
    unfold classify
    rw [hsm, hjp]
  · intro m
    simp [Transform, hT, hS, transformLoop_no_patches sel m]

/-- Ambiguous inline configuration targeting the match-all selector. -/
def specSelAll : PatchSpec := ⟨"", "[amb]", some selAll⟩

/-- Ambiguous inline configuration with a failing selector. -/
def specSelBoom : PatchSpec := ⟨"", "[amb]", some selBoom⟩

/-- Witness: the ambiguous configuration stores neither variant and the
subsequent `Transform` is a successful no-op on a concrete collection. -/
theorem ambiguous_config_transform_noop_witness :
    Config envAmb specSelAll = .ok ⟨"", "[amb]", some selAll, none, none⟩ ∧
    Transform ⟨"", "[amb]", some selAll, none, none⟩ [docX] =
      ([docX], none) := by
  have h := ambiguous_config_transform_noop envAmb specSelAll "[amb]" selAll
    smAmb jpAmb rfl rfl rfl rfl rfl
  exact ⟨h.1, h.2 [docX]⟩

/-- C10 counterexample: an ambiguous configuration whose explicit selector
fails to evaluate: the documents are indeed untouched, but `Transform`
returns the selector error rather than success, so the claim's
unconditional "returns success" is false as stated at this input. -/
theorem ambiguous_config_selector_error_cex :
    Config envAmb specSelBoom =
      .ok ⟨"", "[amb]", some selBoom, none, none⟩ ∧
    Transform ⟨"", "[amb]", some selBoom, none, none⟩ [docX] =
      ([docX], some (.selectorErr "selector boom")) :=
  ⟨rfl, rfl⟩

end PatchTransformer
